import Mathlib

/-!
Verification development for the X509 certificate store and chain-of-trust
verification engine of the xmlsec library (files src/openssl/x509vfy.c and
src/nss/x509vfy.c).

The C code is shallowly embedded: byte strings become List Nat (each element
a byte value 0..255), X509_NAME values become lists of (attribute type,
attribute value) entries, machine integers become Nat/Int, and fallible
functions return Option or an explicit result inductive.  External library
primitives (OpenSSL / NSS / NSPR calls) that the code consumes are modelled
by explicit parameters or by small functions whose doc comments state the
documented contract of the library call they stand for.
-/

/-! ## Byte-level helpers (ctype and xmlsec hex macros) -/

/-- C isspace for the ASCII range: space (32) and the control characters
9..13 (tab, newline, vertical tab, form feed, carriage return). -/
def isSpaceB (c : Nat) : Bool := c == 32 || (9 ≤ c && c ≤ 13)

/-- xmlSecIsHex: the byte is an ASCII hex digit 0-9, a-f or A-F. -/
def isHexB (c : Nat) : Bool :=
  (48 ≤ c && c ≤ 57) || (97 ≤ c && c ≤ 102) || (65 ≤ c && c ≤ 70)

/-- xmlSecGetHex: numeric value of an ASCII hex digit. -/
def getHex (c : Nat) : Nat :=
  if 48 ≤ c && c ≤ 57 then c - 48
  else if 97 ≤ c && c ≤ 102 then c - 97 + 10
  else if 65 ≤ c && c ≤ 70 then c - 65 + 10
  else 0

/-! ## X509 names

An X509_NAME is a sequence of X509_NAME_ENTRY values.  An entry carries an
attribute type (an ASN1_OBJECT; modelled by its identifier bytes, compared
by OBJ_cmp which orders by length and then by memcmp, exactly like the
model comparator below) and an attribute value (an ASN1_STRING; modelled by
its data bytes). -/

structure X509NameEntry where
  typ : List Nat
  val : List Nat
deriving DecidableEq

/-- An X509_NAME: the ordered entry list. -/
abbrev X509Name := List X509NameEntry

/-- Three-way comparison of two Nat values (sign of the int subtraction
a - b used by the C comparators). -/
def natCmp (a b : Nat) : Ordering :=
  if a < b then .lt else if b < a then .gt else .eq

/-- memcmp on byte lists, extended to unequal lengths as plain
lexicographic comparison (the C callers only reach it with equal
lengths). -/
def bytesCmp : List Nat → List Nat → Ordering
  | [], [] => .eq
  | [], _ :: _ => .lt
  | _ :: _, [] => .gt
  | a :: as, b :: bs =>
    match natCmp a b with
    | .eq => bytesCmp as bs
    | o => o

/-- Comparison of two ASN1 byte strings as in
xmlSecOpenSSLX509_NAME_ENTRY_cmp (and as in OBJ_cmp): first the length
difference a_len - b_len, then memcmp of the data. -/
def lenBytesCmp (a b : List Nat) : Ordering :=
  match natCmp a.length b.length with
  | .eq => bytesCmp a b
  | o => o

/-- xmlSecOpenSSLX509_NAME_ENTRY_cmp: compare the entry values first
(length, then bytes), then the entry attribute types via OBJ_cmp. -/
def entryCmp (a b : X509NameEntry) : Ordering :=
  match lenBytesCmp a.val b.val with
  | .eq => lenBytesCmp a.typ b.typ
  | o => o

/-- The sorting relation induced by entryCmp (qsort ascending order). -/
def entryLe (a b : X509NameEntry) : Prop := entryCmp a b ≠ .gt

instance : DecidableRel entryLe := fun a b => by
  unfold entryLe; infer_instance

/-- xmlSecOpenSSLX509_NAME_ENTRIES_copy pushes the entries of the name
from the last to the first, so the copied stack is the reversed entry
list; xmlSecOpenSSLX509NamesCompare then sorts it by entryCmp. -/
def entriesCopySorted (a : X509Name) : List X509NameEntry :=
  List.insertionSort entryLe (List.reverse a)

/-- The loop of xmlSecOpenSSLX509_NAME_ENTRIES_cmp walks both stacks from
the top index downwards and returns the first non-zero entry comparison;
walking from the top is comparing the reversed lists pairwise. -/
def entriesCmpLoop : List X509NameEntry → List X509NameEntry → Ordering
  | a :: as, b :: bs =>
    match entryCmp a b with
    | .eq => entriesCmpLoop as bs
    | o => o
  | _, _ => .eq

/-- xmlSecOpenSSLX509_NAME_ENTRIES_cmp: length difference first, then the
top-down pairwise comparison. -/
def entriesCmp (a b : List X509NameEntry) : Ordering :=
  match natCmp a.length b.length with
  | .eq => entriesCmpLoop (List.reverse a) (List.reverse b)
  | o => o

/-- xmlSecOpenSSLX509NamesCompare: copy both names (reversing), sort both
copies with entryCmp, then compare the sorted stacks.  The C function
returns an int whose sign is the Ordering returned here; names are equal
when the result is zero, i.e. Ordering.eq. -/
def xmlSecOpenSSLX509NamesCompare (a b : X509Name) : Ordering :=
  entriesCmp (entriesCopySorted a) (entriesCopySorted b)

/-! ## DN string parsing (xmlSecOpenSSLX509NameStringRead /
xmlSecOpenSSLX509NameRead)

The reader consumes bytes from the input until the delimiter byte or the
end of input, decoding backslash escapes, and writes the decoded bytes into
a fixed-size output buffer; a write past outSize fails.  The model returns
the buffer content (acc), the number outWritten of bytes the caller must
use (trailing spaces excluded when ign is set) and the unconsumed input
(which still starts with the delimiter when one was found), or none on
error.  The identical function also exists in the NSS backend
(xmlSecNssX509NameStringRead). -/

def nameStringReadLoop (delim outSize : Nat) (ign : Bool) :
    List Nat → List Nat → Nat → Option (List Nat × Nat × List Nat)
  | [], acc, nonSpace => some (acc, if ign then nonSpace else acc.length, [])
  | c :: rest, acc, nonSpace =>
    if c = delim then
      some (acc, if ign then nonSpace else acc.length, c :: rest)
    else if acc.length ≥ outSize then
      none
    else if c = 92 then
      match rest with
      | [] =>
        -- a dangling backslash at the end of input is consumed and dropped
        some (acc, if ign then nonSpace else acc.length, [])
      | d :: rest2 =>
        if isHexB d then
          match rest2 with
          | [] => none
          | e :: rest3 =>
            if isHexB e then
              nameStringReadLoop delim outSize ign rest3
                (acc ++ [getHex d * 16 + getHex e])
                (if ign && !isSpaceB (getHex d * 16 + getHex e) then
                  acc.length + 1 else nonSpace)
            else none
        else
          nameStringReadLoop delim outSize ign rest2 (acc ++ [d])
            (if ign && !isSpaceB d then acc.length + 1 else nonSpace)
    else
      nameStringReadLoop delim outSize ign rest (acc ++ [c])
        (if ign && !isSpaceB c then acc.length + 1 else nonSpace)

/-- xmlSecOpenSSLX509NameStringRead on a fresh output buffer. -/
def xmlSecOpenSSLX509NameStringRead (delim outSize : Nat) (ign : Bool)
    (input : List Nat) : Option (List Nat × Nat × List Nat) :=
  nameStringReadLoop delim outSize ign input [] 0

/-- Result of xmlSecOpenSSLX509NameRead.  The C function returns NULL both
on a parse error and after an out-of-bounds buffer write (which is
undefined behavior); the model keeps the two apart. -/
inductive NameReadResult where
  | ok (entries : X509Name)
  | err
  | oob
deriving DecidableEq

/-- The byte string emailAddress, substituted for the attribute name E. -/
def emailAddressBytes : List Nat :=
  [101, 109, 97, 105, 108, 65, 100, 100, 114, 101, 115, 115]

/-- The outer while loop of xmlSecOpenSSLX509NameRead.  Each pair is read
into the fixed 256-byte name and value buffers; the C code then stores a
terminating NUL at name[nameSize] and value[valueSize], which is an
out-of-bounds write (.oob) when the component filled the whole buffer.
The fuel argument only bounds the recursion; every iteration of the C loop
consumes input, so fuel = input length + 1 never runs out. -/
def nameReadLoop : Nat → List Nat → X509Name → NameReadResult
  | 0, _, _ => .err
  | _ + 1, [], acc => .ok acc
  | fuel + 1, input@(_ :: _), acc =>
    -- skip spaces after a comma or semicolon
    let input1 := input.dropWhile isSpaceB
    match xmlSecOpenSSLX509NameStringRead 61 256 false input1 with
    | none => .err
    | some (nbuf, nameSize, rest1) =>
      -- name[nameSize] = NUL
      if nameSize ≥ 256 then .oob else
      let nameB := nbuf.take nameSize
      let nameB := if nameB = [69] then emailAddressBytes else nameB
      match rest1 with
      | [] =>
        -- no equals sign: valueSize = 0, the entry gets an empty value
        .ok (acc ++ [⟨nameB, []⟩])
      | _ :: rest2 =>
        -- skip the equals sign, then dispatch on the next byte
        match rest2 with
        | 34 :: rest3 =>
          -- quoted value
          (match xmlSecOpenSSLX509NameStringRead 34 256 true rest3 with
          | none => .err
          | some (vbuf, valueSize, rest4) =>
            match rest4 with
            | 34 :: rest5 =>
              -- skip the closing quote and the spaces before the comma
              let rest6 := rest5.dropWhile isSpaceB
              match rest6 with
              | [] =>
                if valueSize ≥ 256 then .oob else
                nameReadLoop fuel [] (acc ++ [⟨nameB, vbuf.take valueSize⟩])
              | 44 :: rest7 =>
                if valueSize ≥ 256 then .oob else
                -- the final shared skip consumes one more byte here
                nameReadLoop fuel (rest7.drop 1)
                  (acc ++ [⟨nameB, vbuf.take valueSize⟩])
              | _ :: _ => .err
            | _ => .err)
        | 35 :: _ =>
          -- octet-string values are not implemented
          .err
        | _ =>
          -- bare value, read until the comma
          (match xmlSecOpenSSLX509NameStringRead 44 256 true rest2 with
          | none => .err
          | some (vbuf, valueSize, rest4) =>
            if valueSize ≥ 256 then .oob else
            nameReadLoop fuel (rest4.drop 1)
              (acc ++ [⟨nameB, vbuf.take valueSize⟩]))

/-- xmlSecOpenSSLX509NameRead. -/
def xmlSecOpenSSLX509NameRead (input : List Nat) : NameReadResult :=
  nameReadLoop (input.length + 1) input []

/-! ## Certificates and CRLs

An X509 certificate as the verification engine observes it: subject and
issuer name, serial number (the ASN1_INTEGER value; ASN1_INTEGER_cmp
compares by value), and the optional subject-key-identifier extension
bytes.  X509_NAME_hash_ex values and DER-encoded name comparisons
(SECITEM_CompareItem on derSubject/derIssuer, X509_NAME_cmp in the store
lookup) are deterministic in the encoded name, so equality of those
external values is modelled as structural equality of the name. -/

structure Cert where
  subject : X509Name
  issuer : X509Name
  serial : Int
  ski : Option (List Nat)
deriving DecidableEq

/-- An X509 CRL: issuer name, the optional nextUpdate time (none when the
field is absent or unparsable), and the revoked serial numbers. -/
structure Crl where
  issuer : X509Name
  nextUpdate : Option Int
  revoked : List Int
deriving DecidableEq

/-! ## xmlSecOpenSSLX509FindCert -/

/-- Result of a findCert call.  The C function returns NULL both when
nothing matched and when a lookup step failed; the model separates the
early error return (after an error was raised) from the silent
fall-through to NULL. -/
inductive FindResult where
  | found (c : Cert)
  | notFound
  | error
deriving DecidableEq

/-- BN_dec2bn: parse a decimal string into an arbitrary-precision integer;
fails when the string does not start with a digit.  Modelled on the
digits-only strings the callers pass (48..57 are the ASCII digits). -/
def decToInt (s : List Nat) : Option Int :=
  let digits := s.takeWhile (fun c => 48 ≤ c && c ≤ 57)
  if digits = [] then none
  else some (Int.ofNat (digits.foldl (fun a c => a * 10 + (c - 48)) 0))

/-- The subject-name section of xmlSecOpenSSLX509FindCert: parse the
subject string (error return when that fails, which also covers the
undefined behavior of the oob case), then return the first candidate
whose subject compares equal under xmlSecOpenSSLX509NamesCompare.
A missing match falls through (none). -/
def findCertBySubject (certs : List Cert) (subjectName : List Nat) :
    Option FindResult :=
  match xmlSecOpenSSLX509NameRead subjectName with
  | .ok nm =>
    match certs.find? (fun c =>
        decide (xmlSecOpenSSLX509NamesCompare nm c.subject = .eq)) with
    | some c => some (.found c)
    | none => none
  | _ => some .error

/-- The issuer-plus-serial section: parse the issuer name and the decimal
serial (error return when either fails), then return the first candidate
whose serial compares equal (ASN1_INTEGER_cmp) and whose issuer name
compares equal under xmlSecOpenSSLX509NamesCompare. -/
def findCertByIssuerSerial (certs : List Cert)
    (issuerName issuerSerial : List Nat) : Option FindResult :=
  match xmlSecOpenSSLX509NameRead issuerName with
  | .ok nm =>
    match decToInt issuerSerial with
    | none => some .error
    | some sn =>
      match certs.find? (fun c =>
          decide (c.serial = sn) &&
          decide (xmlSecOpenSSLX509NamesCompare nm c.issuer = .eq)) with
      | some c => some (.found c)
      | none => none
  | _ => some .error

/-- The SKI section: return the first candidate whose
subject-key-identifier extension bytes match exactly; candidates without
the extension are skipped. -/
def findCertBySki (certs : List Cert) (ski : List Nat) : Option FindResult :=
  match certs.find? (fun c => decide (c.ski = some ski)) with
  | some c => some (.found c)
  | none => none

/-- xmlSecOpenSSLX509FindCert: the three criteria sections run in order;
each section either returns (a found certificate or an error) or falls
through to the next, and NULL (notFound) is reached when every section
fell through. -/
def xmlSecOpenSSLX509FindCert (certs : List Cert)
    (subjectName issuerName issuerSerial : Option (List Nat))
    (ski : Option (List Nat)) : FindResult :=
  let step1 :=
    match subjectName with
    | some s => findCertBySubject certs s
    | none => none
  match step1 with
  | some r => r
  | none =>
    let step2 :=
      match issuerName, issuerSerial with
      | some inm, some isn => findCertByIssuerSerial certs inm isn
      | _, _ => none
    match step2 with
    | some r => r
    | none =>
      match ski with
      | some bytes =>
        if bytes.length > 0 then
          match findCertBySki certs bytes with
          | some r => r
          | none => .notFound
        else .notFound
      | none => .notFound

/-- xmlSecOpenSSLX509StoreFindCert: when a SKI string is supplied it is
base64-decoded in place before the criteria are applied; a decode failure
is an immediate error return.  The decoder (xmlSecBase64DecodeInPlace,
outside this engine) is passed in as a function. -/
def xmlSecOpenSSLX509StoreFindCert (decode : List Nat → Option (List Nat))
    (untrusted : List Cert)
    (subjectName issuerName issuerSerial : Option (List Nat))
    (ski : Option (List Nat)) : FindResult :=
  match ski with
  | some s =>
    match decode s with
    | none => .error
    | some bytes =>
      xmlSecOpenSSLX509FindCert untrusted subjectName issuerName issuerSerial
        (some bytes)
  | none =>
    xmlSecOpenSSLX509FindCert untrusted subjectName issuerName issuerSerial
      none

/-! ## xmlSecNssNumToItem (NSS serial-number encoding) -/

/-- The nine-byte working buffer bb of xmlSecNssNumToItem: a leading zero
byte followed by the eight big-endian bytes of the 64-bit value (each C
cast to unsigned char is a mod 256). -/
def nssNumToItemBB (ui : Nat) : List Nat :=
  [0, (ui >>> 56) % 256, (ui >>> 48) % 256, (ui >>> 40) % 256,
   (ui >>> 32) % 256, (ui >>> 24) % 256, (ui >>> 16) % 256,
   (ui >>> 8) % 256, ui % 256]

/-- The zeros_len loop counts from index 1 while the bytes are zero, so
zeros_len - 1 is the number of leading zeros of the eight value bytes. -/
def leadingZeros : List Nat → Nat
  | [] => 0
  | c :: rest => if c = 0 then leadingZeros rest + 1 else 0

/-- xmlSecNssNumToItem: the SECItem bytes produced for a 64-bit serial
number; the item keeps bb_len - (zeros_len - 1) bytes starting at
bb + (zeros_len - 1). -/
def xmlSecNssNumToItem (ui : Nat) : List Nat :=
  let bb := nssNumToItemBB ui
  bb.drop (leadingZeros (bb.drop 1))

/-- Drop the leading zero bytes of a byte string. -/
def stripZeros : List Nat → List Nat
  | [] => []
  | c :: rest => if c = 0 then stripZeros rest else c :: rest

/-- Big-endian bytes of a natural number with no leading zero byte and
empty for zero; the first argument is recursion fuel (the value itself is
always enough, since dividing by 256 reaches zero at least as fast as
subtracting one). -/
def beBytesF : Nat → Nat → List Nat
  | 0, _ => []
  | fuel + 1, n => if n = 0 then [] else beBytesF fuel (n / 256) ++ [n % 256]

/-- Minimal big-endian bytes of a natural number. -/
def beBytes (n : Nat) : List Nat := beBytesF n n

/-- The big-endian value of a byte list. -/
def beVal (l : List Nat) : Nat := l.foldl (fun a b => a * 256 + b) 0

/-- Modelled from the spec: the minimal unsigned big-endian encoding of
section 4.3 step 2, a zero byte prefixed exactly when the most significant
bit of the first significant byte is set. -/
def specMinimalEncode (n : Nat) : List Nat :=
  let bs := if n = 0 then [0] else beBytes n
  if 128 ≤ bs.headI then 0 :: bs else bs

/-! ## The OpenSSL verification engine (xmlSecOpenSSLX509StoreVerify) -/

/-- X509_cmp_current_time, per the documented OpenSSL contract: the result
is -1 when the ASN1 time is earlier than or equal to the reference time, 1
when it is later, and 0 on error (in particular when the CRL has no
nextUpdate field to compare). -/
def x509CmpTime (t : Option Int) (now : Int) : Int :=
  match t with
  | none => 0
  | some v => if v ≤ now then -1 else 1

/-- The CRL-lookup loop of xmlSecOpenSSLX509VerifyCertAgainstCrls: the
first CRL whose issuer name compares equal (xmlSecOpenSSLX509NamesCompare)
to the given issuer. -/
def findCrlByIssuer (crls : List Crl) (issuer : X509Name) : Option Crl :=
  crls.find? (fun crl =>
    decide (xmlSecOpenSSLX509NamesCompare crl.issuer issuer = .eq))

/-- xmlSecOpenSSLX509VerifyCertAgainstCrls: 1 when the certificate
survives, 0 when it is revoked.  No CRL for the certificate's issuer
leaves it untouched; when the X509_cmp_current_time comparison of the
CRL's nextUpdate returns 0 the CRL is skipped (the comment in the source
calls this branch crl expired); otherwise the certificate is revoked
exactly when its serial appears in the CRL's revoked list. -/
def xmlSecOpenSSLX509VerifyCertAgainstCrls (crls : List Crl) (cert : Cert)
    (now : Int) : Int :=
  match findCrlByIssuer crls cert.issuer with
  | none => 1
  | some crl =>
    if x509CmpTime crl.nextUpdate now = 0 then 1
    else if crl.revoked.contains cert.serial then 0
    else 1

/-- xmlSecOpenSSLX509VerifyCRL: look up a certificate by subject equal to
the CRL's issuer in the X509_STORE (which holds the trust anchors; the
untrusted pool is not passed to this context), then verify the CRL
signature with that certificate's public key.  Returns 1 (verified), 0
(found an issuer but the signature did not verify) or -1 (no issuer
certificate available, the error path).  The cryptographic check
X509_CRL_verify is passed in as sigOk. -/
def xmlSecOpenSSLX509VerifyCRL (anchors : List Cert)
    (sigOk : Crl → Cert → Bool) (crl : Crl) : Int :=
  match anchors.find? (fun c => decide (c.subject = crl.issuer)) with
  | none => -1
  | some c => if sigOk crl c then 1 else 0

/-- The crls2 loop of xmlSecOpenSSLX509StoreVerify: each candidate CRL is
kept when xmlSecOpenSSLX509VerifyCRL returns 1, deleted when it returns 0,
and any other return aborts the whole verification (Except.error). -/
def filterVerifiedCrls (anchors : List Cert) (sigOk : Crl → Cert → Bool) :
    List Crl → Except Unit (List Crl)
  | [] => .ok []
  | crl :: rest =>
    let r := xmlSecOpenSSLX509VerifyCRL anchors sigOk crl
    if r = 1 then
      match filterVerifiedCrls anchors sigOk rest with
      | .ok kept => .ok (crl :: kept)
      | .error e => .error e
    else if r = 0 then filterVerifiedCrls anchors sigOk rest
    else .error ()

/-- The revoked-cert removal loop of xmlSecOpenSSLX509StoreVerify: a
certificate is deleted when it is revoked against the surviving candidate
CRLs (crls2) or against the store's own CRL pool (ctx->crls), which is
used without signature verification. -/
def removeRevokedCerts (crls2 storeCrls : List Crl) (now : Int) :
    List Cert → List Cert
  | [] => []
  | c :: rest =>
    if xmlSecOpenSSLX509VerifyCertAgainstCrls crls2 c now = 0 then
      removeRevokedCerts crls2 storeCrls now rest
    else if xmlSecOpenSSLX509VerifyCertAgainstCrls storeCrls c now = 0 then
      removeRevokedCerts crls2 storeCrls now rest
    else c :: removeRevokedCerts crls2 storeCrls now rest

/-- xmlSecOpenSSLX509FindNextChainCert: scan the list for a certificate
that is a different object (different position), does not carry the same
subject name (the same cert but different copy case is skipped), and
whose issuer name equals the given certificate's subject name.  Name
hashes are deterministic in the name, so hash equality is name equality.
The result is the index of the found certificate. -/
def xmlSecOpenSSLX509FindNextChainCert (certs : List Cert) (i : Nat) :
    Option Nat :=
  (List.range certs.length).find? (fun j =>
    decide (j ≠ i) &&
    (match certs[j]?, certs[i]? with
     | some cj, some ci =>
       decide (cj.subject ≠ ci.subject) && decide (cj.issuer = ci.subject)
     | _, _ => false))

/-- Result of a store verify call: the first verified certificate, NULL
with no error raised (no certificate verified), or the NULL returned
through an internal-error path (goto done after an error). -/
inductive VerifyOutcome where
  | verified (c : Cert)
  | notFound
  | internalError
deriving DecidableEq

/-- The chain loop of xmlSecOpenSSLX509StoreVerify over the index list:
each certificate that has no successor in the chain (a leaf) is verified
with X509_verify_cert (passed in as chainOk, evaluated against the full
filtered list as the untrusted supply) unless the
X509DATA_DONT_VERIFY_CERTS flag is set, in which case it is accepted
outright; the first success is returned. -/
def storeVerifyChainLoop (dontVerifyCerts : Bool)
    (chainOk : Cert → List Cert → Bool) (certs : List Cert) :
    List Nat → VerifyOutcome
  | [] => .notFound
  | i :: rest =>
    match certs[i]? with
    | none => storeVerifyChainLoop dontVerifyCerts chainOk certs rest
    | some c =>
      if xmlSecOpenSSLX509FindNextChainCert certs i = none then
        if dontVerifyCerts || chainOk c certs then .verified c
        else storeVerifyChainLoop dontVerifyCerts chainOk certs rest
      else storeVerifyChainLoop dontVerifyCerts chainOk certs rest

/-- xmlSecOpenSSLX509StoreVerify: merge the candidate certificates with
the store's untrusted pool, signature-filter the candidate CRLs against
the trust anchors (aborting on the error return), remove the revoked
certificates, and try to chain-verify each remaining leaf in order. -/
def xmlSecOpenSSLX509StoreVerify (anchors storeUntrusted : List Cert)
    (storeCrls : List Crl) (sigOk : Crl → Cert → Bool)
    (chainOk : Cert → List Cert → Bool) (certs : List Cert)
    (crls : List Crl) (now : Int) (dontVerifyCerts : Bool) : VerifyOutcome :=
  let certs2 := certs ++ storeUntrusted
  match filterVerifiedCrls anchors sigOk crls with
  | .error _ => .internalError
  | .ok crls2 =>
    let certs3 := removeRevokedCerts crls2 storeCrls now certs2
    storeVerifyChainLoop dontVerifyCerts chainOk certs3
      (List.range certs3.length)

/-! ## The NSS leaf-selection loop (xmlSecNssX509StoreVerify) -/

/-- The inner loop of xmlSecNssX509StoreVerify: the certificate at
position i is skipped (excluded from the leaves) exactly when some other
list node carries a certificate whose DER-encoded issuer equals the
certificate's DER-encoded subject. -/
def nssCertIsSkipped (certs : List Cert) (i : Nat) : Bool :=
  (List.range certs.length).any (fun j =>
    decide (j ≠ i) &&
    (match certs[j]?, certs[i]? with
     | some cj, some ci => decide (cj.issuer = ci.subject)
     | _, _ => false))

/-- Modelled from the spec: the leaf-exclusion predicate of claim C2, some
other candidate in the set has an issuerDN equal to this certificate's
subjectDN. -/
def specLeafExcluded (certs : List Cert) (i : Nat) : Prop :=
  ∃ j cj ci, certs[j]? = some cj ∧ certs[i]? = some ci ∧ j ≠ i ∧
    cj.issuer = ci.subject

/-- Modelled from the spec: the corrected OpenSSL exclusion predicate, the
other candidate must also carry a different subject name. -/
def osslLeafExcluded (certs : List Cert) (i : Nat) : Prop :=
  ∃ j cj ci, certs[j]? = some cj ∧ certs[i]? = some ci ∧ j ≠ i ∧
    cj.subject ≠ ci.subject ∧ cj.issuer = ci.subject

/-- Modelled from the spec: isFresh of section 4.4, false exactly when the
reference time is later than the CRL's nextUpdate. -/
def specIsFresh (crl : Crl) (referenceTime : Int) : Prop :=
  ¬ (∃ t, crl.nextUpdate = some t ∧ t < referenceTime)

/-- Modelled from the spec: the NameMatcher equality of section 4.2, with
the total order taken literally from its words, value bytes first and then
the attribute-type identifier. -/
def specEntryCmp (a b : X509NameEntry) : Ordering :=
  match bytesCmp a.val b.val with
  | .eq => bytesCmp a.typ b.typ
  | o => o

/-- The spec ordering relation on entries. -/
def specEntryLe (a b : X509NameEntry) : Prop := specEntryCmp a b ≠ .gt

instance : DecidableRel specEntryLe := fun a b => by
  unfold specEntryLe; infer_instance

/-- Modelled from the spec: sort each entry list independently by the
(value bytes, then attribute type) order, then require equal length and
pairwise equality of value length, value bytes and attribute type. -/
def specNameEqual (a b : X509Name) : Prop :=
  List.Forall₂
    (fun e f : X509NameEntry =>
      e.val.length = f.val.length ∧ e.val = f.val ∧ e.typ = f.typ)
    (List.insertionSort specEntryLe a) (List.insertionSort specEntryLe b)

/-! ## Concrete example data used by counterexamples and witnesses -/

/-- The name CN=R. -/
def dnRoot : X509Name := [⟨[67, 78], [82]⟩]

/-- The name CN=L. -/
def dnLeaf : X509Name := [⟨[67, 78], [76]⟩]

/-- The name CN=I. -/
def dnInter : X509Name := [⟨[67, 78], [73]⟩]

/-- The name CN=X. -/
def dnX : X509Name := [⟨[67, 78], [88]⟩]

/-- A self-signed root certificate. -/
def certRoot : Cert := ⟨dnRoot, dnRoot, 1, none⟩

/-- A leaf certificate with serial 5 issued by the root. -/
def certLeaf5 : Cert := ⟨dnLeaf, dnRoot, 5, none⟩

/-- A sibling leaf certificate with serial 6 issued by the root. -/
def certLeaf6 : Cert := ⟨[⟨[67, 78], [77]⟩], dnRoot, 6, none⟩

/-- A certificate whose subject is CN=I (the issuer of crlByInter). -/
def certInterSubj : Cert := ⟨dnInter, dnRoot, 7, none⟩

/-- A certificate used by the findCert examples: subject CN=X, issuer
CN=I, serial 5, SKI bytes AA BB. -/
def certFind : Cert := ⟨dnX, dnInter, 5, some [170, 187]⟩

/-- A CRL issued by CN=R whose nextUpdate (10) lies before the reference
time 20 used in the examples, listing serial 5 as revoked. -/
def crlRootExpired : Crl := ⟨dnRoot, some 10, [5]⟩

/-- A CRL issued by CN=R whose nextUpdate (100) lies after the reference
time 20, listing serial 5 as revoked. -/
def crlRootFresh : Crl := ⟨dnRoot, some 100, [5]⟩

/-- A CRL without a nextUpdate field, listing serial 5 as revoked. -/
def crlRootNoNext : Crl := ⟨dnRoot, none, [5]⟩

/-- A CRL issued by CN=I, irrelevant to certificates issued by CN=R. -/
def crlByInter : Crl := ⟨dnInter, some 100, []⟩

/-- Two distinct self-signed certificates sharing the same subject and
issuer name CN=R. -/
def certsSameSubject : List Cert :=
  [⟨dnRoot, dnRoot, 1, none⟩, ⟨dnRoot, dnRoot, 2, none⟩]

/-- Three mutually unrelated self-signed certificates. -/
def certsThreeSelfSigned : List Cert :=
  [⟨dnRoot, dnRoot, 1, none⟩, ⟨dnLeaf, dnLeaf, 2, none⟩,
   ⟨dnInter, dnInter, 3, none⟩]

/-- A signature check that always succeeds. -/
def sigOkTrue : Crl → Cert → Bool := fun _ _ => true

/-- A chain check that always succeeds. -/
def chainOkTrue : Cert → List Cert → Bool := fun _ _ => true

/-- A base64 decoder that always fails. -/
def decodeFail : List Nat → Option (List Nat) := fun _ => none

/-! # Theorems -/

/-! ## Ordering helper lemmas for the name comparators -/

theorem natCmp_self (a : Nat) : natCmp a a = .eq := by
  unfold natCmp; simp

theorem natCmp_eq_iff (a b : Nat) : natCmp a b = .eq ↔ a = b := by
  constructor
  · intro h
    unfold natCmp at h
    split_ifs at h with h₁ h₂
    omega
  · intro h
    rw [h]
    exact natCmp_self b

theorem natCmp_lt_iff (a b : Nat) : natCmp a b = .lt ↔ a < b := by
  constructor
  · intro h
    unfold natCmp at h
    split_ifs at h with h₁ h₂
    exact h₁
  · intro h
    unfold natCmp
    simp [h]

theorem natCmp_swap (a b : Nat) : natCmp b a = (natCmp a b).swap := by
  unfold natCmp
  split_ifs <;> first | rfl | omega

theorem bytesCmp_self : ∀ l : List Nat, bytesCmp l l = .eq
  | [] => rfl
  | a :: as => by
    simp only [bytesCmp, natCmp_self]
    exact bytesCmp_self as

theorem bytesCmp_eq_iff : ∀ a b : List Nat, bytesCmp a b = .eq ↔ a = b
  | [], [] => by simp [bytesCmp]
  | [], _ :: _ => by simp [bytesCmp]
  | _ :: _, [] => by simp [bytesCmp]
  | a :: as, b :: bs => by
    simp only [bytesCmp]
    cases h : natCmp a b
    · have hne : a ≠ b := fun he => by rw [he, natCmp_self] at h; cases h
      simp [hne]
    · have ha : a = b := (natCmp_eq_iff a b).mp h
      simp [ha, bytesCmp_eq_iff as bs]
    · have hne : a ≠ b := fun he => by rw [he, natCmp_self] at h; cases h
      simp [hne]

theorem bytesCmp_swap : ∀ a b : List Nat, bytesCmp b a = (bytesCmp a b).swap
  | [], [] => rfl
  | [], _ :: _ => rfl
  | _ :: _, [] => rfl
  | a :: as, b :: bs => by
    simp only [bytesCmp, natCmp_swap a b]
    cases natCmp a b
    · rfl
    · exact bytesCmp_swap as bs
    · rfl

theorem bytesCmp_lt_trans :
    ∀ a b c : List Nat, bytesCmp a b = .lt → bytesCmp b c = .lt →
      bytesCmp a c = .lt
  | [], [], _, h₁, _ => by simp [bytesCmp] at h₁
  | [], _ :: _, [], _, h₂ => by simp [bytesCmp] at h₂
  | [], _ :: _, _ :: _, _, _ => rfl
  | _ :: _, [], _, h₁, _ => by simp [bytesCmp] at h₁
  | _ :: _, _ :: _, [], _, h₂ => by simp [bytesCmp] at h₂
  | a :: as, b :: bs, c :: cs, h₁, h₂ => by
    simp only [bytesCmp] at h₁ h₂ ⊢
    cases hab : natCmp a b <;> rw [hab] at h₁ <;>
      cases hbc : natCmp b c <;> rw [hbc] at h₂
    · have hac : natCmp a c = .lt := (natCmp_lt_iff a c).mpr
        (lt_trans ((natCmp_lt_iff a b).mp hab) ((natCmp_lt_iff b c).mp hbc))
      simp [hac]
    · obtain rfl : b = c := (natCmp_eq_iff b c).mp hbc
      simp [hab]
    · simp at h₂
    · obtain rfl : a = b := (natCmp_eq_iff a b).mp hab
      simp [hbc]
    · obtain rfl : a = b := (natCmp_eq_iff a b).mp hab
      obtain rfl : a = c := (natCmp_eq_iff a c).mp hbc
      simp [natCmp_self]
      exact bytesCmp_lt_trans as bs cs h₁ h₂
    · simp at h₂
    · simp at h₁
    · simp at h₁
    · simp at h₁

theorem natCmp_gt_iff (a b : Nat) : natCmp a b = .gt ↔ b < a := by
  constructor
  · intro h
    unfold natCmp at h
    split_ifs at h with h₁ h₂
    exact h₂
  · intro h
    unfold natCmp
    rw [if_neg (by omega), if_pos h]

theorem lenBytesCmp_self (a : List Nat) : lenBytesCmp a a = .eq := by
  simp only [lenBytesCmp, natCmp_self]
  exact bytesCmp_self a

theorem lenBytesCmp_eq_iff (a b : List Nat) :
    lenBytesCmp a b = .eq ↔ a = b := by
  simp only [lenBytesCmp]
  cases h : natCmp a.length b.length
  · have hne : a ≠ b := fun he => by
      rw [he, natCmp_self] at h; cases h
    simp [hne]
  · exact bytesCmp_eq_iff a b
  · have hne : a ≠ b := fun he => by
      rw [he, natCmp_self] at h; cases h
    simp [hne]

theorem lenBytesCmp_swap (a b : List Nat) :
    lenBytesCmp b a = (lenBytesCmp a b).swap := by
  simp only [lenBytesCmp, natCmp_swap a.length b.length]
  cases natCmp a.length b.length
  · rfl
  · exact bytesCmp_swap a b
  · rfl

theorem lenBytesCmp_lt_trans (a b c : List Nat) :
    lenBytesCmp a b = .lt → lenBytesCmp b c = .lt → lenBytesCmp a c = .lt := by
  intro h₁ h₂
  simp only [lenBytesCmp] at h₁ h₂ ⊢
  cases hab : natCmp a.length b.length <;> rw [hab] at h₁ <;>
    cases hbc : natCmp b.length c.length <;> rw [hbc] at h₂
  · have hac : natCmp a.length c.length = .lt := (natCmp_lt_iff _ _).mpr
      (lt_trans ((natCmp_lt_iff _ _).mp hab) ((natCmp_lt_iff _ _).mp hbc))
    simp [hac]
  · have he : b.length = c.length := (natCmp_eq_iff _ _).mp hbc
    have hac : natCmp a.length c.length = .lt := (natCmp_lt_iff _ _).mpr
      (he ▸ (natCmp_lt_iff _ _).mp hab)
    simp [hac]
  · simp at h₂
  · have he : a.length = b.length := (natCmp_eq_iff _ _).mp hab
    have hac : natCmp a.length c.length = .lt := (natCmp_lt_iff _ _).mpr
      (he ▸ (natCmp_lt_iff _ _).mp hbc)
    simp [hac]
  · have he : a.length = b.length := (natCmp_eq_iff _ _).mp hab
    have he2 : b.length = c.length := (natCmp_eq_iff _ _).mp hbc
    have hac : natCmp a.length c.length = .eq :=
      (natCmp_eq_iff _ _).mpr (he.trans he2)
    simp [hac]
    exact bytesCmp_lt_trans a b c h₁ h₂
  · simp at h₂
  · simp at h₁
  · simp at h₁
  · simp at h₁

theorem entryCmp_self (a : X509NameEntry) : entryCmp a a = .eq := by
  simp only [entryCmp, lenBytesCmp_self]

theorem entryCmp_eq_iff (a b : X509NameEntry) :
    entryCmp a b = .eq ↔ a = b := by
  simp only [entryCmp]
  cases h : lenBytesCmp a.val b.val
  · have hne : a ≠ b := fun he => by
      rw [he, lenBytesCmp_self] at h; cases h
    simp [hne]
  · have hv : a.val = b.val := (lenBytesCmp_eq_iff _ _).mp h
    constructor
    · intro h2
      have ht : a.typ = b.typ := (lenBytesCmp_eq_iff _ _).mp h2
      cases a; cases b
      simp_all
    · intro h2
      rw [h2]
      exact lenBytesCmp_self _
  · have hne : a ≠ b := fun he => by
      rw [he, lenBytesCmp_self] at h; cases h
    simp [hne]

theorem entryCmp_swap (a b : X509NameEntry) :
    entryCmp b a = (entryCmp a b).swap := by
  simp only [entryCmp, lenBytesCmp_swap a.val b.val]
  cases lenBytesCmp a.val b.val
  · rfl
  · exact lenBytesCmp_swap a.typ b.typ
  · rfl

theorem entryCmp_lt_trans (a b c : X509NameEntry) :
    entryCmp a b = .lt → entryCmp b c = .lt → entryCmp a c = .lt := by
  intro h₁ h₂
  simp only [entryCmp] at h₁ h₂ ⊢
  cases hab : lenBytesCmp a.val b.val <;> rw [hab] at h₁ <;>
    cases hbc : lenBytesCmp b.val c.val <;> rw [hbc] at h₂
  · simp [lenBytesCmp_lt_trans _ _ _ hab hbc]
  · have he : b.val = c.val := (lenBytesCmp_eq_iff _ _).mp hbc
    rw [← he]
    simp [hab]
  · simp at h₂
  · have he : a.val = b.val := (lenBytesCmp_eq_iff _ _).mp hab
    rw [he]
    simp [hbc]
  · have he : a.val = b.val := (lenBytesCmp_eq_iff _ _).mp hab
    have he2 : b.val = c.val := (lenBytesCmp_eq_iff _ _).mp hbc
    rw [(lenBytesCmp_eq_iff a.val c.val).mpr (he.trans he2)]
    exact lenBytesCmp_lt_trans _ _ _ h₁ h₂
  · simp at h₂
  · simp at h₁
  · simp at h₁
  · simp at h₁

theorem entryLe_total (a b : X509NameEntry) : entryLe a b ∨ entryLe b a := by
  unfold entryLe
  cases h : entryCmp a b
  · left; simp [h]
  · left; simp [h]
  · right
    rw [entryCmp_swap, h]
    decide

theorem entryLe_trans (a b c : X509NameEntry) :
    entryLe a b → entryLe b c → entryLe a c := by
  unfold entryLe
  intro h₁ h₂
  cases hab : entryCmp a b
  · cases hbc : entryCmp b c
    · rw [entryCmp_lt_trans a b c hab hbc]
      simp
    · obtain rfl : b = c := (entryCmp_eq_iff b c).mp hbc
      rw [hab]
      simp
    · exact absurd hbc h₂
  · obtain rfl : a = b := (entryCmp_eq_iff a b).mp hab
    exact h₂
  · exact absurd hab h₁

theorem entryLe_antisymm (a b : X509NameEntry) :
    entryLe a b → entryLe b a → a = b := by
  unfold entryLe
  intro h₁ h₂
  cases hab : entryCmp a b
  · rw [entryCmp_swap, hab] at h₂
    exact absurd rfl h₂
  · exact (entryCmp_eq_iff a b).mp hab
  · exact absurd hab h₁

theorem specEntryCmp_self (a : X509NameEntry) : specEntryCmp a a = .eq := by
  simp only [specEntryCmp, bytesCmp_self]

theorem specEntryCmp_eq_iff (a b : X509NameEntry) :
    specEntryCmp a b = .eq ↔ a = b := by
  simp only [specEntryCmp]
  cases h : bytesCmp a.val b.val
  · have hne : a ≠ b := fun he => by
      rw [he, bytesCmp_self] at h; cases h
    simp [hne]
  · have hv : a.val = b.val := (bytesCmp_eq_iff _ _).mp h
    constructor
    · intro h2
      have ht : a.typ = b.typ := (bytesCmp_eq_iff _ _).mp h2
      cases a; cases b
      simp_all
    · intro h2
      rw [h2]
      exact bytesCmp_self _
  · have hne : a ≠ b := fun he => by
      rw [he, bytesCmp_self] at h; cases h
    simp [hne]

theorem specEntryCmp_swap (a b : X509NameEntry) :
    specEntryCmp b a = (specEntryCmp a b).swap := by
  simp only [specEntryCmp, bytesCmp_swap a.val b.val]
  cases bytesCmp a.val b.val
  · rfl
  · exact bytesCmp_swap a.typ b.typ
  · rfl

theorem specEntryCmp_lt_trans (a b c : X509NameEntry) :
    specEntryCmp a b = .lt → specEntryCmp b c = .lt →
      specEntryCmp a c = .lt := by
  intro h₁ h₂
  simp only [specEntryCmp] at h₁ h₂ ⊢
  cases hab : bytesCmp a.val b.val <;> rw [hab] at h₁ <;>
    cases hbc : bytesCmp b.val c.val <;> rw [hbc] at h₂
  · simp [bytesCmp_lt_trans _ _ _ hab hbc]
  · have he : b.val = c.val := (bytesCmp_eq_iff _ _).mp hbc
    rw [← he]
    simp [hab]
  · simp at h₂
  · have he : a.val = b.val := (bytesCmp_eq_iff _ _).mp hab
    rw [he]
    simp [hbc]
  · have he : a.val = b.val := (bytesCmp_eq_iff _ _).mp hab
    have he2 : b.val = c.val := (bytesCmp_eq_iff _ _).mp hbc
    rw [(bytesCmp_eq_iff a.val c.val).mpr (he.trans he2)]
    exact bytesCmp_lt_trans _ _ _ h₁ h₂
  · simp at h₂
  · simp at h₁
  · simp at h₁
  · simp at h₁

theorem specEntryLe_total (a b : X509NameEntry) :
    specEntryLe a b ∨ specEntryLe b a := by
  unfold specEntryLe
  cases h : specEntryCmp a b
  · left; simp [h]
  · left; simp [h]
  · right
    rw [specEntryCmp_swap, h]
    decide

theorem specEntryLe_trans (a b c : X509NameEntry) :
    specEntryLe a b → specEntryLe b c → specEntryLe a c := by
  unfold specEntryLe
  intro h₁ h₂
  cases hab : specEntryCmp a b
  · cases hbc : specEntryCmp b c
    · rw [specEntryCmp_lt_trans a b c hab hbc]
      simp
    · obtain rfl : b = c := (specEntryCmp_eq_iff b c).mp hbc
      rw [hab]
      simp
    · exact absurd hbc h₂
  · obtain rfl : a = b := (specEntryCmp_eq_iff a b).mp hab
    exact h₂
  · exact absurd hab h₁

theorem specEntryLe_antisymm (a b : X509NameEntry) :
    specEntryLe a b → specEntryLe b a → a = b := by
  unfold specEntryLe
  intro h₁ h₂
  cases hab : specEntryCmp a b
  · rw [specEntryCmp_swap, hab] at h₂
    exact absurd rfl h₂
  · exact (specEntryCmp_eq_iff a b).mp hab
  · exact absurd hab h₁

/-! ## Sorted-permutation characterization of name equality -/

theorem sortEntry_eq_iff_perm (l₁ l₂ : List X509NameEntry) :
    List.insertionSort entryLe l₁ = List.insertionSort entryLe l₂ ↔
      l₁.Perm l₂ := by
  haveI : IsTotal X509NameEntry entryLe := ⟨entryLe_total⟩
  haveI : IsTrans X509NameEntry entryLe := ⟨entryLe_trans⟩
  haveI : IsAntisymm X509NameEntry entryLe := ⟨entryLe_antisymm⟩
  constructor
  · intro h
    exact ((List.perm_insertionSort entryLe l₁).symm.trans
      (h ▸ List.perm_insertionSort entryLe l₂ : List.insertionSort entryLe l₁
        |>.Perm l₂))
  · intro h
    exact List.eq_of_perm_of_sorted
      ((List.perm_insertionSort entryLe l₁).trans
        (h.trans (List.perm_insertionSort entryLe l₂).symm))
      (List.sorted_insertionSort entryLe l₁)
      (List.sorted_insertionSort entryLe l₂)

theorem sortSpecEntry_eq_iff_perm (l₁ l₂ : List X509NameEntry) :
    List.insertionSort specEntryLe l₁ = List.insertionSort specEntryLe l₂ ↔
      l₁.Perm l₂ := by
  haveI : IsTotal X509NameEntry specEntryLe := ⟨specEntryLe_total⟩
  haveI : IsTrans X509NameEntry specEntryLe := ⟨specEntryLe_trans⟩
  haveI : IsAntisymm X509NameEntry specEntryLe := ⟨specEntryLe_antisymm⟩
  constructor
  · intro h
    exact ((List.perm_insertionSort specEntryLe l₁).symm.trans
      (h ▸ List.perm_insertionSort specEntryLe l₂ :
        List.insertionSort specEntryLe l₁ |>.Perm l₂))
  · intro h
    exact List.eq_of_perm_of_sorted
      ((List.perm_insertionSort specEntryLe l₁).trans
        (h.trans (List.perm_insertionSort specEntryLe l₂).symm))
      (List.sorted_insertionSort specEntryLe l₁)
      (List.sorted_insertionSort specEntryLe l₂)

theorem entriesCmpLoop_self : ∀ l : List X509NameEntry,
    entriesCmpLoop l l = .eq
  | [] => rfl
  | a :: as => by
    simp only [entriesCmpLoop, entryCmp_self]
    exact entriesCmpLoop_self as

theorem entriesCmpLoop_eq_iff : ∀ x y : List X509NameEntry,
    x.length = y.length → (entriesCmpLoop x y = .eq ↔ x = y)
  | [], [], _ => by simp [entriesCmpLoop]
  | [], _ :: _, h => by simp at h
  | _ :: _, [], h => by simp at h
  | a :: as, b :: bs, h => by
    simp only [entriesCmpLoop]
    cases hab : entryCmp a b
    · have hne : a ≠ b := fun he => by
        rw [he, entryCmp_self] at hab; cases hab
      simp [hne]
    · have he : a = b := (entryCmp_eq_iff a b).mp hab
      have ih := entriesCmpLoop_eq_iff as bs (by simpa using h)
      simp [he, ih]
    · have hne : a ≠ b := fun he => by
        rw [he, entryCmp_self] at hab; cases hab
      simp [hne]

theorem entriesCmp_eq_iff (x y : List X509NameEntry) :
    entriesCmp x y = .eq ↔ x = y := by
  simp only [entriesCmp]
  cases h : natCmp x.length y.length
  · have hne : x ≠ y := fun he => by
      rw [he, natCmp_self] at h; cases h
    simp [hne]
  · have hlen : x.length = y.length := (natCmp_eq_iff _ _).mp h
    rw [entriesCmpLoop_eq_iff (List.reverse x) (List.reverse y) (by simpa)]
    simp
  · have hne : x ≠ y := fun he => by
      rw [he, natCmp_self] at h; cases h
    simp [hne]

/-- The code comparator equality is exactly permutation of the entry
lists. -/
theorem namesCompare_eq_iff_perm (a b : X509Name) :
    xmlSecOpenSSLX509NamesCompare a b = .eq ↔ a.Perm b := by
  unfold xmlSecOpenSSLX509NamesCompare entriesCopySorted
  rw [entriesCmp_eq_iff, sortEntry_eq_iff_perm]
  constructor
  · intro h
    exact (a.reverse_perm.symm.trans h).trans b.reverse_perm
  · intro h
    exact (a.reverse_perm.trans h).trans b.reverse_perm.symm

theorem forall2_entryEq_iff_eq : ∀ x y : List X509NameEntry,
    List.Forall₂
      (fun e f : X509NameEntry =>
        e.val.length = f.val.length ∧ e.val = f.val ∧ e.typ = f.typ) x y ↔
      x = y
  | [], [] => by simp
  | [], _ :: _ => by simp
  | _ :: _, [] => by simp
  | a :: as, b :: bs => by
    rw [List.forall₂_cons, forall2_entryEq_iff_eq as bs]
    constructor
    · intro h
      obtain ⟨⟨_, hv, ht⟩, htl⟩ := h
      cases a; cases b
      simp_all
    · intro h
      cases h
      exact ⟨⟨rfl, rfl, rfl⟩, rfl⟩

/-- The spec NameMatcher equality is also exactly permutation of the
entry lists. -/
theorem specNameEqual_iff_perm (a b : X509Name) :
    specNameEqual a b ↔ a.Perm b := by
  unfold specNameEqual
  rw [forall2_entryEq_iff_eq, sortSpecEntry_eq_iff_perm]

/-! ## Claim theorems -/

/-- C8: DN equality is order-independent, reflexive and symmetric: for all
DNs a and b, equal(a,a) holds, equal(a,b) equals equal(b,a), and equal(a,b)
holds iff after sorting each entry list independently by the total order
(value bytes first, then attribute-type identifier) the two sequences have
the same length and are pairwise equal in value length, value bytes, and
attribute type; in particular the names CN=A,O=B and O=B,CN=A compare
equal. -/
theorem c8_dn_equality :
    (∀ a b : X509Name,
      xmlSecOpenSSLX509NamesCompare a a = .eq ∧
      (xmlSecOpenSSLX509NamesCompare a b = .eq ↔
        xmlSecOpenSSLX509NamesCompare b a = .eq) ∧
      (xmlSecOpenSSLX509NamesCompare a b = .eq ↔ specNameEqual a b)) ∧
    xmlSecOpenSSLX509NamesCompare [⟨[67, 78], [65]⟩, ⟨[79], [66]⟩]
      [⟨[79], [66]⟩, ⟨[67, 78], [65]⟩] = .eq := by
  refine ⟨fun a b => ⟨?_, ?_, ?_⟩, by decide⟩
  · exact (namesCompare_eq_iff_perm a a).mpr (List.Perm.refl a)
  · rw [namesCompare_eq_iff_perm, namesCompare_eq_iff_perm]
    exact ⟨List.Perm.symm, List.Perm.symm⟩
  · rw [namesCompare_eq_iff_perm, specNameEqual_iff_perm]

/-- C7: inside any DN value a backslash followed by two hex digits decodes
to the byte the digits denote, a backslash followed by a non-hex character
yields that character literally with the backslash dropped, and a dangling
backslash at the end of input is dropped; parsing CN=A backslash comma B
yields the value A,B and parsing CN=A backslash 41 B yields the value
AAB. -/
theorem c7_dn_escape_rules :
    (∀ delim outSize ign c rest acc ns,
      92 ≠ delim → isHexB c = false → acc.length < outSize →
      nameStringReadLoop delim outSize ign (92 :: c :: rest) acc ns =
        nameStringReadLoop delim outSize ign rest (acc ++ [c])
          (if ign && !isSpaceB c then acc.length + 1 else ns)) ∧
    (∀ delim outSize ign d e rest acc ns,
      92 ≠ delim → isHexB d = true → isHexB e = true →
      acc.length < outSize →
      nameStringReadLoop delim outSize ign (92 :: d :: e :: rest) acc ns =
        nameStringReadLoop delim outSize ign rest
          (acc ++ [getHex d * 16 + getHex e])
          (if ign && !isSpaceB (getHex d * 16 + getHex e) then
            acc.length + 1 else ns)) ∧
    (∀ delim outSize ign acc ns,
      92 ≠ delim → acc.length < outSize →
      nameStringReadLoop delim outSize ign [92] acc ns =
        some (acc, if ign then ns else acc.length, [])) ∧
    xmlSecOpenSSLX509NameRead [67, 78, 61, 65, 92, 44, 66] =
      .ok [⟨[67, 78], [65, 44, 66]⟩] ∧
    xmlSecOpenSSLX509NameRead [67, 78, 61, 65, 92, 52, 49, 66] =
      .ok [⟨[67, 78], [65, 65, 66]⟩] := by
  refine ⟨?_, ?_, ?_, by decide, by decide⟩
  · intro delim outSize ign c rest acc ns hd hc hlt
    have hge : ¬ acc.length ≥ outSize := by omega
    rw [nameStringReadLoop.eq_def]
    simp [hd, hge, hc]
  · intro delim outSize ign d e rest acc ns hd hhd hhe hlt
    have hge : ¬ acc.length ≥ outSize := by omega
    rw [nameStringReadLoop.eq_def]
    simp [hd, hge, hhd, hhe]
  · intro delim outSize ign acc ns hd hlt
    have hge : ¬ acc.length ≥ outSize := by omega
    rw [nameStringReadLoop.eq_def]
    simp [hd, hge]

/-- C7 witness: the three escape rules applied at concrete inputs (a
backslash-comma escape, a backslash-41 hex escape and a dangling
backslash, each inside a value read with delimiter comma and a 256-byte
buffer). -/
theorem c7_witness :
    (nameStringReadLoop 44 256 true (92 :: 44 :: [66]) [65] 1 =
      nameStringReadLoop 44 256 true [66] [65, 44] 2) ∧
    (nameStringReadLoop 44 256 true (92 :: 52 :: 49 :: [66]) [65] 1 =
      nameStringReadLoop 44 256 true [66] [65, 65] 2) ∧
    (nameStringReadLoop 44 256 true [92] [65] 1 = some ([65], 1, [])) := by
  refine ⟨?_, ?_, ?_⟩
  · have h := c7_dn_escape_rules.1 44 256 true 44 [66] [65] 1
      (by decide) (by decide) (by decide)
    simpa using h
  · have h := c7_dn_escape_rules.2.1 44 256 true 52 49 [66] [65] 1
      (by decide) (by decide) (by decide) (by decide)
    simpa using h
  · have h := c7_dn_escape_rules.2.2.1 44 256 true [65] 1
      (by decide) (by decide)
    simpa using h

/-- C1: the code checks the CRL nextUpdate with X509_cmp_current_time and
treats only result 0 as the expired case, but 0 is the error return of
that function; an actually expired CRL yields -1 and falls through to the
revocation scan, so a certificate whose serial is listed only in an
expired CRL is still excluded, contrary to the claim (and to the crl
expired comment in the source).  At reference time 20, a CRL with
nextUpdate 10 (not fresh per the spec) still revokes serial 5, the
verification excludes the certificate before any chain attempt, and only
a CRL whose nextUpdate cannot be compared (absent) is skipped. -/
theorem c1_expired_crl_still_revokes :
    ¬ specIsFresh crlRootExpired 20 ∧
    xmlSecOpenSSLX509VerifyCertAgainstCrls [crlRootExpired] certLeaf5 20 =
      0 ∧
    xmlSecOpenSSLX509StoreVerify [certRoot] [] [] sigOkTrue chainOkTrue
      [certLeaf5] [crlRootExpired] 20 false = .notFound ∧
    xmlSecOpenSSLX509StoreVerify [certRoot] [] [] sigOkTrue chainOkTrue
      [certLeaf5] [] 20 false = .verified certLeaf5 ∧
    xmlSecOpenSSLX509VerifyCertAgainstCrls [crlRootNoNext] certLeaf5 20 =
      1 := by
  refine ⟨?_, by decide, by decide, by decide, by decide⟩
  intro h
  exact h ⟨10, rfl, by norm_num⟩

/-- One ordinary character (not the delimiter, not a backslash) is copied
to the output buffer when the bounds check passes. -/
theorem nsrLoop_step (delim outSize : Nat) (ign : Bool) (c : Nat)
    (rest acc : List Nat) (ns : Nat) (hcd : c ≠ delim) (hc92 : c ≠ 92)
    (hlt : acc.length < outSize) :
    nameStringReadLoop delim outSize ign (c :: rest) acc ns =
      nameStringReadLoop delim outSize ign rest (acc ++ [c])
        (if ign && !isSpaceB c then acc.length + 1 else ns) := by
  have hge : ¬ acc.length ≥ outSize := by omega
  rw [nameStringReadLoop.eq_def]
  simp [hcd, hc92, hge]

/-- Hitting the delimiter stops the read; the delimiter stays in the
remaining input. -/
theorem nsrLoop_delim (delim outSize : Nat) (ign : Bool)
    (rest acc : List Nat) (ns : Nat) :
    nameStringReadLoop delim outSize ign (delim :: rest) acc ns =
      some (acc, if ign then ns else acc.length, delim :: rest) := by
  rw [nameStringReadLoop.eq_def]
  simp

/-- A character that must be written when the buffer is already full is
the output-buffer-is-too-small error. -/
theorem nsrLoop_overflow (delim outSize : Nat) (ign : Bool) (c : Nat)
    (rest acc : List Nat) (ns : Nat) (hcd : c ≠ delim)
    (hge : acc.length ≥ outSize) :
    nameStringReadLoop delim outSize ign (c :: rest) acc ns = none := by
  rw [nameStringReadLoop.eq_def]
  simp [hcd, hge]

/-- Running the name reader over k letters a followed by an equals sign
(with the 256-byte buffer of xmlSecOpenSSLX509NameRead) copies all k
letters and reports outWritten = initial length + k. -/
theorem nsr97_run : ∀ (k : Nat) (acc : List Nat) (ns : Nat),
    acc.length + k ≤ 256 →
    nameStringReadLoop 61 256 false (List.replicate k 97 ++ [61, 65]) acc
      ns = some (acc ++ List.replicate k 97, acc.length + k, [61, 65])
  | 0, acc, ns, _ => by
    simp [nsrLoop_delim]
  | k + 1, acc, ns, h => by
    rw [List.replicate_succ, List.cons_append,
      nsrLoop_step 61 256 false 97 _ acc ns (by omega) (by omega)
        (by omega),
      nsr97_run k (acc ++ [97]) _ (by simp; omega)]
    simp [List.replicate_succ]
    omega

/-- Running the name reader over 257 or more letters a overflows the
256-byte buffer and fails. -/
theorem nsr97_overflow : ∀ (k : Nat) (acc : List Nat) (ns : Nat),
    acc.length + k = 256 →
    nameStringReadLoop 61 256 false (List.replicate (k + 1) 97) acc ns =
      none
  | 0, acc, ns, h => by
    rw [List.replicate_succ]
    exact nsrLoop_overflow 61 256 false 97 _ acc ns (by omega) (by omega)
  | k + 1, acc, ns, h => by
    rw [List.replicate_succ,
      nsrLoop_step 61 256 false 97 _ acc ns (by omega) (by omega)
        (by omega)]
    exact nsr97_overflow k (acc ++ [97]) _ (by simp; omega)

set_option maxRecDepth 8192 in
/-- C10: the DN parser accumulates each attribute name and decoded value
in a fixed 256-byte buffer.  A component longer than the buffer does fail
with an error, but a component of exactly 256 bytes succeeds with
outWritten = 256, after which xmlSecOpenSSLX509NameRead stores the
terminating NUL at name[256], one byte past the end of the buffer: the
no-out-of-bounds-write part of the claim is false at this input (256
letters a followed by an equals sign). -/
theorem c10_name_buffer_overflow :
    xmlSecOpenSSLX509NameRead (List.replicate 256 97 ++ [61, 65]) = .oob ∧
    xmlSecOpenSSLX509NameStringRead 61 256 false
      (List.replicate 256 97 ++ [61, 65]) =
      some (List.replicate 256 97, 256, [61, 65]) ∧
    xmlSecOpenSSLX509NameStringRead 61 256 false (List.replicate 257 97) =
      none := by
  have h2 : xmlSecOpenSSLX509NameStringRead 61 256 false
      (List.replicate 256 97 ++ [61, 65]) =
      some (List.replicate 256 97, 256, [61, 65]) := by
    have h := nsr97_run 256 [] 0 (by simp)
    simpa [xmlSecOpenSSLX509NameStringRead] using h
  refine ⟨?_, h2, ?_⟩
  · have hinput : List.replicate 256 97 ++ [61, 65] =
        97 :: (List.replicate 255 97 ++ [61, 65]) := by
      rw [show (256 : Nat) = 255 + 1 from rfl, List.replicate_succ,
        List.cons_append]
    unfold xmlSecOpenSSLX509NameRead
    rw [hinput]
    rw [show (97 :: (List.replicate 255 97 ++ [61, 65])).length + 1 =
      258 + 1 by simp]
    rw [nameReadLoop.eq_def]
    simp only [List.dropWhile_cons, show isSpaceB 97 = false from rfl,
      Bool.false_eq_true, if_false]
    rw [← hinput, h2]
    simp
  · have h := nsr97_overflow 256 [] 0 (by simp)
    simpa [xmlSecOpenSSLX509NameStringRead] using h

/-- The loop predicate of xmlSecOpenSSLX509FindNextChainCert holds of an
index exactly when it names a different candidate with a different subject
whose issuer is the given certificate's subject. -/
theorem osslChainPred_iff (certs : List Cert) (i j : Nat) :
    ((decide (j ≠ i) &&
      match certs[j]?, certs[i]? with
      | some cj, some ci =>
        decide (cj.subject ≠ ci.subject) && decide (cj.issuer = ci.subject)
      | _, _ => false) = true) ↔
    ∃ cj ci, certs[j]? = some cj ∧ certs[i]? = some ci ∧ j ≠ i ∧
      cj.subject ≠ ci.subject ∧ cj.issuer = ci.subject := by
  cases hj : certs[j]? <;> cases hi : certs[i]? <;> simp_all

/-- The loop predicate of xmlSecNssX509StoreVerify holds of an index
exactly when it names a different candidate whose issuer is the given
certificate's subject. -/
theorem nssChainPred_iff (certs : List Cert) (i j : Nat) :
    ((decide (j ≠ i) &&
      match certs[j]?, certs[i]? with
      | some cj, some ci => decide (cj.issuer = ci.subject)
      | _, _ => false) = true) ↔
    ∃ cj ci, certs[j]? = some cj ∧ certs[i]? = some ci ∧ j ≠ i ∧
      cj.issuer = ci.subject := by
  cases hj : certs[j]? <;> cases hi : certs[i]? <;> simp_all

/-- C2 counterexample: two distinct self-signed certificates with the same
subject and issuer name.  The claim's exclusion predicate (some other
candidate has an issuerDN equal to this certificate's subjectDN) holds of
the first certificate, yet the OpenSSL backend keeps it in the leaf set:
its loop skips any candidate with the same subject name, so the stated iff
is false at this input. -/
theorem c2_counterexample :
    specLeafExcluded certsSameSubject 0 ∧
    xmlSecOpenSSLX509FindNextChainCert certsSameSubject 0 = none := by
  constructor
  · exact ⟨1, ⟨dnRoot, dnRoot, 2, none⟩, ⟨dnRoot, dnRoot, 1, none⟩, rfl,
      rfl, by decide, rfl⟩
  · decide

/-- C2 amended: in the OpenSSL backend a candidate is excluded from the
leaf set iff some other candidate with a different subjectDN has an
issuerDN equal to the candidate's subjectDN (candidates sharing the
subjectDN never disqualify it); in the NSS backend any other candidate
with such an issuerDN excludes it, exactly as the claim states.  In both
backends a certificate never disqualifies itself, and three mutually
unrelated self-signed candidates all remain in the leaf set. -/
theorem c2_leaf_selection_amended :
    (∀ certs i,
      (xmlSecOpenSSLX509FindNextChainCert certs i = none ↔
        ¬ osslLeafExcluded certs i) ∧
      (nssCertIsSkipped certs i = true ↔ specLeafExcluded certs i)) ∧
    (xmlSecOpenSSLX509FindNextChainCert certsThreeSelfSigned 0 = none ∧
     xmlSecOpenSSLX509FindNextChainCert certsThreeSelfSigned 1 = none ∧
     xmlSecOpenSSLX509FindNextChainCert certsThreeSelfSigned 2 = none ∧
     nssCertIsSkipped certsThreeSelfSigned 0 = false ∧
     nssCertIsSkipped certsThreeSelfSigned 1 = false ∧
     nssCertIsSkipped certsThreeSelfSigned 2 = false) := by
  refine ⟨fun certs i => ⟨?_, ?_⟩,
    by decide, by decide, by decide, by decide, by decide, by decide⟩
  · unfold xmlSecOpenSSLX509FindNextChainCert osslLeafExcluded
    rw [List.find?_eq_none]
    constructor
    · intro h hex
      obtain ⟨j, cj, ci, hj, hi, hne, hs, hiss⟩ := hex
      have hjlen : j < certs.length := by
        obtain ⟨hlt, _⟩ := List.getElem?_eq_some.mp hj
        exact hlt
      exact h j (List.mem_range.mpr hjlen)
        ((osslChainPred_iff certs i j).mpr ⟨cj, ci, hj, hi, hne, hs, hiss⟩)
    · intro h j _ hp
      obtain ⟨cj, ci, h1, h2, h3, h4, h5⟩ :=
        (osslChainPred_iff certs i j).mp hp
      exact h ⟨j, cj, ci, h1, h2, h3, h4, h5⟩
  · unfold nssCertIsSkipped specLeafExcluded
    rw [List.any_eq_true]
    constructor
    · intro h
      obtain ⟨j, _, hp⟩ := h
      obtain ⟨cj, ci, h1, h2, h3, h4⟩ := (nssChainPred_iff certs i j).mp hp
      exact ⟨j, cj, ci, h1, h2, h3, h4⟩
    · intro h
      obtain ⟨j, cj, ci, h1, h2, h3, h4⟩ := h
      have hjlen : j < certs.length := by
        obtain ⟨hlt, _⟩ := List.getElem?_eq_some.mp h1
        exact hlt
      exact ⟨j, List.mem_range.mpr hjlen,
        (nssChainPred_iff certs i j).mpr ⟨cj, ci, h1, h2, h3, h4⟩⟩

/-- A single candidate CRL whose verification hits the error return makes
the whole CRL filter abort, wherever it sits in the list. -/
theorem filterVerifiedCrls_error (anchors : List Cert)
    (sigOk : Crl → Cert → Bool) :
    ∀ crls : List Crl,
      (∃ crl ∈ crls, xmlSecOpenSSLX509VerifyCRL anchors sigOk crl = -1) →
      filterVerifiedCrls anchors sigOk crls = .error ()
  | [], h => by simp at h
  | c :: rest, h => by
    obtain ⟨crl, hmem, hval⟩ := h
    simp only [filterVerifiedCrls]
    rcases List.mem_cons.mp hmem with rfl | hmem2
    · rw [hval]
      norm_num
    · have ih := filterVerifiedCrls_error anchors sigOk rest
        ⟨crl, hmem2, hval⟩
      split_ifs with h1 h0
      · rw [ih]
      · exact ih
      · rfl

/-- C3 counterexample: a CRL whose issuer certificate is present among the
candidate certificates but not among the trust anchors.  The claim says
the issuer is located in trustAnchors union candidateCerts, so the result
would not be InternalError; the code searches only the trust store, hits
the error return, and the whole verification aborts, although the CRL is
irrelevant to the candidate's chain. -/
theorem c3_counterexample :
    (∃ c, c ∈ ([] : List Cert) ++ [certInterSubj] ∧
      c.subject = crlByInter.issuer) ∧
    xmlSecOpenSSLX509VerifyCRL [] sigOkTrue crlByInter = -1 ∧
    xmlSecOpenSSLX509StoreVerify [] [] [] sigOkTrue chainOkTrue
      [certInterSubj] [crlByInter] 20 false = .internalError := by
  refine ⟨⟨certInterSubj, by simp, rfl⟩, by decide, by decide⟩

/-- C3 amended: CRL signature verification locates the issuer certificate
among the trust anchors only (the certificates of the X509_STORE), not
among the candidate certificates; when no anchor's subject equals the
CRL's issuer the result is the error return, which aborts the entire
verify call with no verified certificate, even when that CRL is irrelevant
to the chain eventually attempted; when an issuer is found but the
signature does not check out the result is NotVerified (0), never an
error. -/
theorem c3_crl_issuer_lookup_amended :
    (∀ anchors sigOk crl,
      (xmlSecOpenSSLX509VerifyCRL anchors sigOk crl = -1 ↔
        ∀ c ∈ anchors, c.subject ≠ crl.issuer) ∧
      (xmlSecOpenSSLX509VerifyCRL anchors sigOk crl = 0 ↔
        ∃ c, anchors.find? (fun a => decide (a.subject = crl.issuer)) =
          some c ∧ sigOk crl c = false) ∧
      (xmlSecOpenSSLX509VerifyCRL anchors sigOk crl = 1 ↔
        ∃ c, anchors.find? (fun a => decide (a.subject = crl.issuer)) =
          some c ∧ sigOk crl c = true)) ∧
    (∀ anchors storeUntrusted storeCrls sigOk chainOk certs crls now flag,
      (∃ crl ∈ crls, xmlSecOpenSSLX509VerifyCRL anchors sigOk crl = -1) →
      xmlSecOpenSSLX509StoreVerify anchors storeUntrusted storeCrls sigOk
        chainOk certs crls now flag = .internalError) := by
  constructor
  · intro anchors sigOk crl
    unfold xmlSecOpenSSLX509VerifyCRL
    cases hf : anchors.find? (fun a => decide (a.subject = crl.issuer)) with
    | none =>
      have hall := List.find?_eq_none.mp hf
      refine ⟨⟨fun _ c hc => ?_, fun _ => rfl⟩, by simp, by simp⟩
      have := hall c hc
      simpa using this
    | some c =>
      have hpc : c.subject = crl.issuer := by
        have := List.find?_some hf
        simpa using this
      have hmem : c ∈ anchors := List.mem_of_find?_eq_some hf
      dsimp only
      by_cases hs : sigOk crl c = true
      · rw [if_pos hs]
        refine ⟨⟨fun h => ?_, fun h => absurd (h c hmem) ?_⟩, ?_, ?_⟩
        · simp at h
        · simpa using hpc
        · constructor
          · intro h
            simp at h
          · intro h
            obtain ⟨c2, hc2, hsf⟩ := h
            obtain rfl := Option.some_inj.mp hc2
            simp [hs] at hsf
        · exact ⟨fun _ => ⟨c, rfl, hs⟩, fun _ => rfl⟩
      · rw [if_neg hs]
        have hsf : sigOk crl c = false := by
          cases hb : sigOk crl c
          · rfl
          · exact absurd hb hs
        refine ⟨⟨fun h => ?_, fun h => absurd (h c hmem) ?_⟩, ?_, ?_⟩
        · simp at h
        · simpa using hpc
        · exact ⟨fun _ => ⟨c, rfl, hsf⟩, fun _ => rfl⟩
        · constructor
          · intro h
            simp at h
          · intro h
            obtain ⟨c2, hc2, hst⟩ := h
            obtain rfl := Option.some_inj.mp hc2
            simp [hst] at hsf
  · intro anchors storeUntrusted storeCrls sigOk chainOk certs crls now
      flag hex
    unfold xmlSecOpenSSLX509StoreVerify
    rw [filterVerifiedCrls_error anchors sigOk crls hex]

/-- C3 witness: the abort clause of the amended theorem applied to a
store holding one root anchor and one candidate CRL issued by an unknown
issuer. -/
theorem c3_witness :
    xmlSecOpenSSLX509StoreVerify [certRoot] [] [] sigOkTrue chainOkTrue []
      [crlByInter] 20 true = .internalError := by
  exact c3_crl_issuer_lookup_amended.2 [certRoot] [] [] sigOkTrue
    chainOkTrue [] [crlByInter] 20 true ⟨crlByInter, by simp, by decide⟩

/-- xmlSecOpenSSLX509VerifyCRL only returns -1, 0 or 1. -/
theorem verifyCRL_cases (anchors : List Cert) (sigOk : Crl → Cert → Bool)
    (crl : Crl) :
    xmlSecOpenSSLX509VerifyCRL anchors sigOk crl = -1 ∨
    xmlSecOpenSSLX509VerifyCRL anchors sigOk crl = 0 ∨
    xmlSecOpenSSLX509VerifyCRL anchors sigOk crl = 1 := by
  unfold xmlSecOpenSSLX509VerifyCRL
  cases anchors.find? (fun a => decide (a.subject = crl.issuer))
  · exact Or.inl rfl
  · dsimp only
    split_ifs
    · exact Or.inr (Or.inr rfl)
    · exact Or.inr (Or.inl rfl)

/-- When no candidate CRL hits the error return, the CRL filter keeps
exactly the CRLs whose signature verified, silently dropping the
NotVerified ones. -/
theorem filterVerifiedCrls_ok (anchors : List Cert)
    (sigOk : Crl → Cert → Bool) :
    ∀ crls : List Crl,
      (∀ crl ∈ crls, xmlSecOpenSSLX509VerifyCRL anchors sigOk crl ≠ -1) →
      filterVerifiedCrls anchors sigOk crls =
        .ok (crls.filter (fun crl =>
          decide (xmlSecOpenSSLX509VerifyCRL anchors sigOk crl = 1)))
  | [], _ => by simp [filterVerifiedCrls]
  | c :: rest, h => by
    have hc := h c (List.mem_cons_self c rest)
    have ih := filterVerifiedCrls_ok anchors sigOk rest
      (fun crl hm => h crl (List.mem_cons_of_mem c hm))
    simp only [filterVerifiedCrls]
    rcases verifyCRL_cases anchors sigOk c with hv | hv | hv
    · exact absurd hv hc
    · rw [hv]
      norm_num
      rw [ih, List.filter_cons]
      simp [hv]
    · rw [hv]
      norm_num
      rw [ih, List.filter_cons]
      simp [hv]

/-- The revoked-cert removal loop keeps exactly the certificates that are
revoked by neither the surviving candidate CRLs nor the store CRLs. -/
theorem removeRevokedCerts_eq_filter (crls2 storeCrls : List Crl)
    (now : Int) :
    ∀ certs : List Cert,
      removeRevokedCerts crls2 storeCrls now certs =
        certs.filter (fun c =>
          decide (xmlSecOpenSSLX509VerifyCertAgainstCrls crls2 c now ≠ 0) &&
          decide (xmlSecOpenSSLX509VerifyCertAgainstCrls storeCrls c now ≠
            0))
  | [] => by simp [removeRevokedCerts]
  | c :: rest => by
    have ih := removeRevokedCerts_eq_filter crls2 storeCrls now rest
    by_cases h1 : xmlSecOpenSSLX509VerifyCertAgainstCrls crls2 c now = 0
    · simp [removeRevokedCerts, List.filter_cons, h1, ih]
    · by_cases h2 :
        xmlSecOpenSSLX509VerifyCertAgainstCrls storeCrls c now = 0
      · simp [removeRevokedCerts, List.filter_cons, h1, h2, ih]
      · simp [removeRevokedCerts, List.filter_cons, h1, h2, ih]

/-- With the dont-verify-certs flag set the chain loop never consults the
chain verifier: the first leaf wins outright. -/
theorem chainLoop_true_ignores_chainOk (chainOk : Cert → List Cert → Bool)
    (certs : List Cert) :
    ∀ idxs : List Nat,
      storeVerifyChainLoop true chainOk certs idxs =
        storeVerifyChainLoop true chainOkTrue certs idxs
  | [] => rfl
  | i :: rest => by
    have ih := chainLoop_true_ignores_chainOk chainOk certs rest
    simp only [storeVerifyChainLoop]
    cases certs[i]?
    · exact ih
    · dsimp only
      rw [ih]
      simp

/-- C4 counterexample: with the dont-verify-certs flag set (the only skip
flag in the code, cited by the claim as skipRevocationCheck) the
revocation filter still runs: a fresh verified CRL revoking the only
candidate makes the verify return nothing, while the chain loop over the
unfiltered candidate would have accepted it outright.  And a store CRL is
applied with no signature verification at all: it revokes the candidate
even though no certificate anywhere has its issuer's subject (the claim
would demand InternalError from verifySignature there). -/
theorem c4_counterexample :
    xmlSecOpenSSLX509StoreVerify [certRoot] [] [] sigOkTrue chainOkTrue
      [certLeaf5] [crlRootFresh] 20 true = .notFound ∧
    storeVerifyChainLoop true chainOkTrue [certLeaf5] (List.range 1) =
      .verified certLeaf5 ∧
    xmlSecOpenSSLX509StoreVerify [] [] [crlRootFresh] sigOkTrue chainOkTrue
      [certLeaf5] [] 20 false = .notFound ∧
    (∀ c ∈ ([] : List Cert) ++ [certLeaf5],
      c.subject ≠ crlRootFresh.issuer) := by
  refine ⟨by decide, by decide, by decide, by decide⟩

/-- C4 amended: the revocation filter is never skipped; the
dont-verify-certs flag only skips the chain-verification step, making the
first remaining leaf win outright.  Only the candidate CRLs are
signature-verified (against the trust anchors), with NotVerified CRLs
dropped silently; the store's CRL pool is applied without signature
verification; and before any chain-build attempt exactly the certificates
revoked against the surviving candidate CRLs or the store CRLs are
removed, the others retained. -/
theorem c4_revocation_filter_amended :
    (∀ anchors sigOk crls,
      (∀ crl ∈ crls, xmlSecOpenSSLX509VerifyCRL anchors sigOk crl ≠ -1) →
      filterVerifiedCrls anchors sigOk crls =
        .ok (crls.filter (fun crl =>
          decide (xmlSecOpenSSLX509VerifyCRL anchors sigOk crl = 1)))) ∧
    (∀ crls2 storeCrls now certs,
      removeRevokedCerts crls2 storeCrls now certs =
        certs.filter (fun c =>
          decide (xmlSecOpenSSLX509VerifyCertAgainstCrls crls2 c now ≠ 0) &&
          decide (xmlSecOpenSSLX509VerifyCertAgainstCrls storeCrls c now ≠
            0))) ∧
    (∀ chainOk certs idxs,
      storeVerifyChainLoop true chainOk certs idxs =
        storeVerifyChainLoop true chainOkTrue certs idxs) ∧
    (∀ anchors storeUntrusted storeCrls sigOk chainOk certs crls now flag
        crls2,
      filterVerifiedCrls anchors sigOk crls = .ok crls2 →
      xmlSecOpenSSLX509StoreVerify anchors storeUntrusted storeCrls sigOk
        chainOk certs crls now flag =
        storeVerifyChainLoop flag chainOk
          (removeRevokedCerts crls2 storeCrls now (certs ++ storeUntrusted))
          (List.range (removeRevokedCerts crls2 storeCrls now
            (certs ++ storeUntrusted)).length)) := by
  refine ⟨filterVerifiedCrls_ok, removeRevokedCerts_eq_filter,
    chainLoop_true_ignores_chainOk, ?_⟩
  intro anchors storeUntrusted storeCrls sigOk chainOk certs crls now flag
    crls2 h
  unfold xmlSecOpenSSLX509StoreVerify
  rw [h]

/-- C4 witness: the amended clauses applied at concrete inputs. -/
theorem c4_witness :
    filterVerifiedCrls [certRoot] sigOkTrue [crlRootFresh] =
      .ok (List.filter (fun crl =>
        decide (xmlSecOpenSSLX509VerifyCRL [certRoot] sigOkTrue crl = 1))
        [crlRootFresh]) ∧
    xmlSecOpenSSLX509StoreVerify [certRoot] [] [] sigOkTrue chainOkTrue
      [certLeaf5] [crlRootFresh] 20 true =
      storeVerifyChainLoop true chainOkTrue
        (removeRevokedCerts [crlRootFresh] [] 20 ([certLeaf5] ++ []))
        (List.range (removeRevokedCerts [crlRootFresh] [] 20
          ([certLeaf5] ++ [])).length) := by
  constructor
  · exact c4_revocation_filter_amended.1 [certRoot] sigOkTrue [crlRootFresh]
      (by decide)
  · exact c4_revocation_filter_amended.2.2.2 [certRoot] [] [] sigOkTrue
      chainOkTrue [certLeaf5] [crlRootFresh] 20 true [crlRootFresh]
      (by rfl)

/-- C5 counterexample: a candidate with subject CN=X, issuer CN=I and
serial 5.  A findCert call supplying subjectName CN=Q (which matches
nothing) together with issuerName CN=I and issuerSerial 5 returns the
candidate through the issuer-plus-serial section, although the claim says
a supplied subjectName decides the result alone (the subject-only call
returns NotFound). -/
theorem c5_counterexample :
    xmlSecOpenSSLX509FindCert [certFind] (some [67, 78, 61, 81])
      (some [67, 78, 61, 73]) (some [53]) none = .found certFind ∧
    xmlSecOpenSSLX509FindCert [certFind] (some [67, 78, 61, 81]) none none
      none = .notFound := by
  refine ⟨by decide, by decide⟩

/-- C5 amended: the three findCert criteria are tried in order subject,
issuer-plus-serial, SKI, but a given criterion that finds no match falls
through to the next rather than deciding the result; a name that fails to
parse is an immediate error return; a matching subject lookup returns its
certificate no matter what else is supplied; and a call with no criteria
returns NotFound without raising an error. -/
theorem c5_findcert_precedence_amended :
    (∀ certs s iN iS ski, xmlSecOpenSSLX509NameRead s = .err →
      xmlSecOpenSSLX509FindCert certs (some s) iN iS ski = .error) ∧
    (∀ certs s dn c iN iS ski, xmlSecOpenSSLX509NameRead s = .ok dn →
      certs.find? (fun cc =>
        decide (xmlSecOpenSSLX509NamesCompare dn cc.subject = .eq)) =
        some c →
      xmlSecOpenSSLX509FindCert certs (some s) iN iS ski = .found c) ∧
    (∀ certs s dn iN iS ski, xmlSecOpenSSLX509NameRead s = .ok dn →
      certs.find? (fun cc =>
        decide (xmlSecOpenSSLX509NamesCompare dn cc.subject = .eq)) =
        none →
      xmlSecOpenSSLX509FindCert certs (some s) iN iS ski =
        xmlSecOpenSSLX509FindCert certs none iN iS ski) ∧
    (∀ certs iN iS ski dn sn, xmlSecOpenSSLX509NameRead iN = .ok dn →
      decToInt iS = some sn →
      certs.find? (fun cc => decide (cc.serial = sn) &&
        decide (xmlSecOpenSSLX509NamesCompare dn cc.issuer = .eq)) =
        none →
      xmlSecOpenSSLX509FindCert certs none (some iN) (some iS) ski =
        xmlSecOpenSSLX509FindCert certs none none none ski) ∧
    (∀ certs, xmlSecOpenSSLX509FindCert certs none none none none =
      .notFound) := by
  refine ⟨?_, ?_, ?_, ?_, fun certs => rfl⟩
  · intro certs s iN iS ski h
    simp [xmlSecOpenSSLX509FindCert, findCertBySubject, h]
  · intro certs s dn c iN iS ski h hf
    simp [xmlSecOpenSSLX509FindCert, findCertBySubject, h, hf]
  · intro certs s dn iN iS ski h hf
    simp [xmlSecOpenSSLX509FindCert, findCertBySubject, h, hf]
  · intro certs iN iS ski dn sn h hd hf
    simp [xmlSecOpenSSLX509FindCert, findCertByIssuerSerial, h, hd, hf]

/-- C5 witness: the subject section finds the candidate when the subject
matches, and with a non-matching subject the call equals the call without
the subject criterion. -/
theorem c5_witness :
    xmlSecOpenSSLX509FindCert [certFind] (some [67, 78, 61, 88]) none none
      none = .found certFind ∧
    xmlSecOpenSSLX509FindCert [certFind] (some [67, 78, 61, 81])
      (some [67, 78, 61, 73]) (some [53]) none =
      xmlSecOpenSSLX509FindCert [certFind] none (some [67, 78, 61, 73])
        (some [53]) none := by
  constructor
  · exact c5_findcert_precedence_amended.2.1 [certFind] [67, 78, 61, 88]
      [⟨[67, 78], [88]⟩] certFind none none none (by decide) (by decide)
  · exact c5_findcert_precedence_amended.2.2.1 [certFind] [67, 78, 61, 81]
      [⟨[67, 78], [81]⟩] (some [67, 78, 61, 73]) (some [53]) none
      (by decide) (by decide)

/-- Dropping zeros_len - 1 bytes from the nine-byte buffer keeps exactly
one zero byte in front of the significant bytes. -/
theorem drop_leadingZeros : ∀ l : List Nat,
    (0 :: l).drop (leadingZeros l) = 0 :: stripZeros l
  | [] => rfl
  | c :: rest => by
    by_cases hc : c = 0
    · subst hc
      simp only [leadingZeros, stripZeros, eq_self_iff_true, if_true]
      rw [List.drop_succ_cons]
      exact drop_leadingZeros rest
    · simp [leadingZeros, stripZeros, hc]

/-- The item always starts with the zero byte followed by the stripped
big-endian value bytes. -/
theorem xmlSecNssNumToItem_eq (ui : Nat) :
    xmlSecNssNumToItem ui =
      0 :: stripZeros ((nssNumToItemBB ui).drop 1) :=
  drop_leadingZeros ((nssNumToItemBB ui).drop 1)

theorem beVal_cons_zero (l : List Nat) : beVal (0 :: l) = beVal l := by
  simp [beVal]

theorem beVal_stripZeros : ∀ l : List Nat,
    beVal (stripZeros l) = beVal l
  | [] => rfl
  | c :: rest => by
    by_cases hc : c = 0
    · subst hc
      simp only [stripZeros, eq_self_iff_true, if_true]
      rw [beVal_stripZeros rest, beVal_cons_zero]
    · simp [stripZeros, hc]

theorem stripZeros_head_ne_zero : ∀ (l : List Nat) (x : Nat)
    (rest : List Nat), stripZeros l = x :: rest → x ≠ 0
  | [], x, rest, h => by simp [stripZeros] at h
  | c :: tail, x, rest, h => by
    by_cases hc : c = 0
    · subst hc
      simp only [stripZeros, eq_self_iff_true, if_true] at h
      exact stripZeros_head_ne_zero tail x rest h
    · simp [stripZeros, hc] at h
      exact h.1 ▸ hc

/-- The eight value bytes of the buffer reassemble to the 64-bit value. -/
theorem beVal_numToItemBytes (ui : Nat)
    (h : ui < 18446744073709551616) :
    beVal ((nssNumToItemBB ui).drop 1) = ui := by
  show beVal [(ui >>> 56) % 256, (ui >>> 48) % 256, (ui >>> 40) % 256,
    (ui >>> 32) % 256, (ui >>> 24) % 256, (ui >>> 16) % 256,
    (ui >>> 8) % 256, ui % 256] = ui
  simp only [beVal, List.foldl, Nat.shiftRight_eq_div_pow]
  norm_num
  omega

/-- C6 counterexample: the decimal serial 5 is encoded by the NSS backend
as the two bytes 00 05, not as the minimal encoding 05 the claim
describes (the most significant bit of 5 is clear, so the claim forbids
the zero prefix). -/
theorem c6_counterexample :
    xmlSecNssNumToItem 5 = [0, 5] ∧ specMinimalEncode 5 = [5] ∧
    xmlSecNssNumToItem 5 ≠ specMinimalEncode 5 := by
  refine ⟨by decide, by decide, by decide⟩

/-- C6 amended: the NSS backend parses the serial into a 64-bit unsigned
integer (not an arbitrary-precision one) and encodes it as one zero byte
always prefixed to the minimal big-endian bytes of the value (empty for
zero), regardless of the most significant bit; the OpenSSL issuer-serial
scan indeed matches a candidate only when the serial value is equal and
the parsed issuer DN compares equal to the candidate's issuer. -/
theorem c6_serial_encoding_amended :
    (∀ ui, ui < 18446744073709551616 →
      xmlSecNssNumToItem ui =
        0 :: stripZeros ((nssNumToItemBB ui).drop 1) ∧
      beVal (xmlSecNssNumToItem ui) = ui ∧
      (∀ x rest, stripZeros ((nssNumToItemBB ui).drop 1) = x :: rest →
        x ≠ 0)) ∧
    (∀ (certs : List Cert) (dn : X509Name) (sn : Int) (c : Cert),
      certs.find? (fun cc => decide (cc.serial = sn) &&
        decide (xmlSecOpenSSLX509NamesCompare dn cc.issuer = .eq)) =
        some c →
      c ∈ certs ∧ c.serial = sn ∧
        xmlSecOpenSSLX509NamesCompare dn c.issuer = .eq) := by
  constructor
  · intro ui h
    refine ⟨xmlSecNssNumToItem_eq ui, ?_,
      fun x rest hx => stripZeros_head_ne_zero _ x rest hx⟩
    rw [xmlSecNssNumToItem_eq ui, beVal_cons_zero, beVal_stripZeros]
    exact beVal_numToItemBytes ui h
  · intro certs dn sn c hf
    have hp := List.find?_some hf
    have hmem := List.mem_of_find?_eq_some hf
    simp only [Bool.and_eq_true, decide_eq_true_eq] at hp
    exact ⟨hmem, hp.1, hp.2⟩

/-- C6 witness: the amended encoding equations at serial 5, and the
issuer-serial scan finding the CN=I certificate with serial 5. -/
theorem c6_witness :
    beVal (xmlSecNssNumToItem 5) = 5 ∧
    certFind ∈ [certFind] ∧ certFind.serial = 5 ∧
    xmlSecOpenSSLX509NamesCompare dnInter certFind.issuer = .eq := by
  have h1 := (c6_serial_encoding_amended.1 5 (by norm_num)).2.1
  have h2 := c6_serial_encoding_amended.2 [certFind] dnInter 5 certFind
    (by decide)
  exact ⟨h1, h2.1, h2.2.1, h2.2.2⟩

/-- C9: when a SKI string is supplied and its base64 decoding fails, the
store findCert returns failure immediately, whatever other criteria are
supplied and whether or not they would match a candidate. -/
theorem c9_ski_decode_failure (decode : List Nat → Option (List Nat))
    (untrusted : List Cert) (sN iN iS : Option (List Nat)) (s : List Nat)
    (h : decode s = none) :
    xmlSecOpenSSLX509StoreFindCert decode untrusted sN iN iS (some s) =
      .error := by
  simp [xmlSecOpenSSLX509StoreFindCert, h]

/-- C9 witness: a failing decoder forces the error return even though the
supplied subject name CN=X matches the candidate. -/
theorem c9_witness :
    xmlSecOpenSSLX509StoreFindCert decodeFail [certFind]
      (some [67, 78, 61, 88]) (some [67, 78, 61, 73]) (some [53])
      (some [65]) = .error ∧
    xmlSecOpenSSLX509FindCert [certFind] (some [67, 78, 61, 88]) none none
      none = .found certFind := by
  exact ⟨c9_ski_decode_failure decodeFail [certFind] (some [67, 78, 61, 88])
    (some [67, 78, 61, 73]) (some [53]) [65] rfl, by decide⟩
